import Mathlib

/-!
Shallow embedding of `torchDF/model_onnx_export.py` (DeepFilterNet ONNX
export script) and proofs about its observable behaviour.

Tensors are modelled as flat lists of rationals (the script only ever
compares flattened values elementwise).  External library calls
(torch.onnx.export, onnx.checker, quantization, onnxruntime session
construction, torchaudio I/O, the conversion subprocess) are modelled as
trace events plus an environment supplying their results; the script's own
control flow, data plumbing and error raising are translated statement by
statement.
-/

set_option autoImplicit false

namespace ModelOnnxExport

/-- A tensor, flattened to its list of values. -/
abbrev Tensor := List ℚ

/-- Source: `FRAME_SIZE = 480`. -/
def FRAME_SIZE : Nat := 480

/-- Source: `INPUT_NAMES = ["input_frame"]`. -/
def INPUT_NAMES : List String := ["input_frame"]

/-- Source: `OUTPUT_NAMES = ["enhanced_audio_frame", "out_states"]`. -/
def OUTPUT_NAMES : List String := ["enhanced_audio_frame", "out_states"]

/-- Source: `generate_onnx_features`, the dict comprehension
`zip(INPUT_NAMES, input_features)` with keys the input names; the
`.detach().cpu().numpy()` conversion is the identity on values.  Python
`zip` truncates to the shorter argument, as `List.zip` does.  The dict is
modelled as an association list (the keys produced are distinct). -/
def generate_onnx_features (input_features : List Tensor) : List (String × Tensor) :=
  INPUT_NAMES.zip input_features

/-- Source: `torch.allclose(x, y, atol=1e-2)` with torch's default
`rtol=1e-5`: elementwise `|x - y| <= atol + rtol * |y|`.  Tensors of
unequal length are not close (the script only ever compares same-shaped
outputs; torch's broadcasting of unequal shapes is not modelled, and the
wellformedness hypotheses of the theorems below restrict to equal
lengths). -/
def torchAllclose (rtol atol : ℚ) (x y : Tensor) : Bool :=
  (x.length == y.length) &&
    (x.zip y).all (fun p => decide (|p.1 - p.2| ≤ atol + rtol * |p.2|))

/-- Torch default relative tolerance `1e-5`. -/
def allcloseDefaultRtol : ℚ := 1 / 100000

/-- The absolute tolerance `1e-2` the test passes to `torch.allclose`. -/
def testAtol : ℚ := 1 / 100

/-- Source: `x.flatten()[-5:]`, the last 5 flattened values (all of them
when the tensor has fewer than 5). -/
def last5 (t : Tensor) : Tensor := t.drop (t.length - 5)

/-- Structured content of the assertion message
`f"out (name) - (i), (x.flatten()[-5:]), (y_tensor.flatten()[-5:])"`
raised by the correctness test. -/
structure TestFailure where
  name : String
  iter : Nat
  torchLast5 : Tensor
  onnxLast5 : Tensor
  deriving DecidableEq, Repr

/-- Python's three-argument `zip`, truncating to the shortest list. -/
def zip3 {α β γ : Type} : List α → List β → List γ → List (α × β × γ)
  | a :: as, b :: bs, c :: cs => (a, b, c) :: zip3 as bs cs
  | _, _, _ => []

/-- The inner loop of `test_onnx_model`: for each
`x, y, name in zip(output_torch, output_onnx, OUTPUT_NAMES)` assert
`torch.allclose(x, y, atol=1e-2)`, raising the diagnostic on the first
failure. -/
def checkOutputs (i : Nat) : List (Tensor × Tensor × String) → Except TestFailure Unit
  | [] => Except.ok ()
  | (x, y, name) :: rest =>
    if torchAllclose allcloseDefaultRtol testAtol x y then checkOutputs i rest
    else Except.error ⟨name, i, last5 x, last5 y⟩

/-- Source: `input_frame = torch.randn(FRAME_SIZE)` at loop iteration `i`;
the random source is a parameter and every draw has length `FRAME_SIZE`
by construction. -/
def mkFrame (randn : Nat → Fin FRAME_SIZE → ℚ) (i : Nat) : Tensor :=
  List.ofFn (randn i)

/-- The arguments of the call `torch_model(input_frame, states_torch)` at
loop iteration `i` of `test_onnx_model`: the fresh random frame, and
`states_torch`, which is bound once before the loop and never reassigned
inside it. -/
def torchCallArgs (states_torch : Tensor) (randn : Nat → Fin FRAME_SIZE → ℚ)
    (i : Nat) : Tensor × Tensor :=
  (mkFrame randn i, states_torch)

/-- The feed `generate_onnx_features([input_frame, states_onnx])` passed to
`ort_session.run` at loop iteration `i` of `test_onnx_model`;
`states_onnx` is bound once before the loop and never reassigned. -/
def onnxCallFeed (states_onnx : Tensor) (randn : Nat → Fin FRAME_SIZE → ℚ)
    (i : Nat) : List (String × Tensor) :=
  generate_onnx_features [mkFrame randn i, states_onnx]

/-- The `(x, y, name)` triples compared at loop iteration `i` of
`test_onnx_model`: `zip(output_torch, output_onnx, OUTPUT_NAMES)`. -/
def testIterPairs (tm : Tensor → Tensor → List Tensor)
    (ortRun : List String → List (String × Tensor) → List Tensor)
    (states_torch states_onnx : Tensor) (randn : Nat → Fin FRAME_SIZE → ℚ)
    (i : Nat) : List (Tensor × Tensor × String) :=
  let a := torchCallArgs states_torch randn i
  let output_torch := tm a.1 a.2
  let output_onnx := ortRun OUTPUT_NAMES (onnxCallFeed states_onnx randn i)
  zip3 output_torch output_onnx OUTPUT_NAMES

/-- One iteration of the `for i in range(30)` loop of `test_onnx_model`:
run both models on the fresh frame and assert closeness of each zipped
output triple. -/
def testIterCheck (tm : Tensor → Tensor → List Tensor)
    (ortRun : List String → List (String × Tensor) → List Tensor)
    (states_torch states_onnx : Tensor) (randn : Nat → Fin FRAME_SIZE → ℚ)
    (i : Nat) : Except TestFailure Unit :=
  checkOutputs i (testIterPairs tm ortRun states_torch states_onnx randn i)

/-- Trace events emitted by the embedded script (each models one external
call or loop iteration of the source). -/
inductive Event where
  | exportCall (path : String) (inputNames outputNames : List String) (opset : Nat)
  | checkModel (path : String)
  | quantPreProcess (srcPath dstPath : String)
  | quantizeDynamic (srcPath dstPath : String) (weightType : String)
  | simplifyCall (path : String)
  | ortConvert (argv : List String)
  | sessionBuild (loadPath : String) (optimizedPath : String)
      (interOpThreads intraOpThreads : Nat) (executionMode : String)
      (optLevel : String) (providers : List String)
  | sessionRun (outputNames : List String) (feed : List (String × Tensor))
  | testIteration (i : Nat)
  | benchmarkRun
  | loadAudio (path : String)
  | saveAudio (path : String) (data : List (List ℚ)) (sr : Nat)
      (encoding : String) (bitsPerSample : Nat)
  deriving DecidableEq, Repr

/-- The loop `for i in range(30)` of `test_onnx_model`, unrolled from
iteration `i` with `k` iterations remaining: stops at the first failing
assertion.  Returns the iteration events executed and the result. -/
def testFrom (tm : Tensor → Tensor → List Tensor)
    (ortRun : List String → List (String × Tensor) → List Tensor)
    (states_torch states_onnx : Tensor) (randn : Nat → Fin FRAME_SIZE → ℚ) :
    Nat → Nat → List Event × Except TestFailure Unit
  | _, 0 => ([], Except.ok ())
  | i, k + 1 =>
    match testIterCheck tm ortRun states_torch states_onnx randn i with
    | Except.error f => ([Event.testIteration i], Except.error f)
    | Except.ok () =>
      let rest := testFrom tm ortRun states_torch states_onnx randn (i + 1) k
      (Event.testIteration i :: rest.1, rest.2)

/-- Source: `test_onnx_model(torch_model, ort_session, states)`.
`states_torch` and `states_onnx` are deep copies of `states` made before
the loop (`copy.deepcopy` of a value is the value itself in this model)
and are never reassigned. -/
def test_onnx_model (tm : Tensor → Tensor → List Tensor)
    (ortRun : List String → List (String × Tensor) → List Tensor)
    (states : Tensor) (randn : Nat → Fin FRAME_SIZE → ℚ) :
    List Event × Except TestFailure Unit :=
  let states_torch := states
  let states_onnx := states
  testFrom tm ortRun states_torch states_onnx randn 0 30

/-- The `out_states` element (index 1) of the torch model's output tuple at
loop iteration `i` of `test_onnx_model`. -/
def torchProducedState (tm : Tensor → Tensor → List Tensor)
    (states_torch : Tensor) (randn : Nat → Fin FRAME_SIZE → ℚ) (i : Nat) : Tensor :=
  let a := torchCallArgs states_torch randn i
  (tm a.1 a.2).getD 1 []

/-- Python's `str.replace(pat, rep)` on character lists for a nonempty
pattern: replace each non-overlapping occurrence, scanning left to right.
(The empty-pattern case, which Python treats specially, is never used by
the script and is left as the identity on the remaining text.)  The fuel
argument bounds the recursion; `replaceAllChars` supplies enough. -/
def replaceAllCharsFuel : Nat → List Char → List Char → List Char → List Char
  | 0, l, _, _ => l
  | _ + 1, [], _, _ => []
  | fuel + 1, c :: rest, pat, rep =>
    if pat ≠ [] ∧ (c :: rest).take pat.length = pat then
      rep ++ replaceAllCharsFuel fuel (List.drop pat.length (c :: rest)) pat rep
    else c :: replaceAllCharsFuel fuel rest pat rep

/-- Python's `s.replace(pat, rep)` for a nonempty pattern `pat`. -/
def pyStrReplace (s pat rep : String) : String :=
  ⟨replaceAllCharsFuel (s.data.length + 1) s.data pat.data rep.data⟩

/-- Source: `noisy_audio.mean(dim=0)` on a channels-by-samples waveform:
the samplewise average across channels. -/
def meanDim0 (w : List (List ℚ)) : List ℚ :=
  match w with
  | [] => []
  | c :: _ => (List.range c.length).map
      (fun j => ((w.map (fun ch => ch.getD j 0)).sum) / (w.length : ℚ))

/-- The command-line arguments of the script (argparse namespace):
`--output-path` (default `denoiser_model.onnx`), `--simplify`, `--test`,
`--performance`, `--inference-path`, `--ort`,
`--always-apply-all-stages`. -/
structure Args where
  output_path : String := "denoiser_model.onnx"
  simplify : Bool := false
  test : Bool := false
  performance : Bool := false
  inference_path : Option String := none
  ort : Bool := false
  always_apply_all_stages : Bool := false
  deriving DecidableEq, Repr

/-- The environment of external collaborators: results of the wrapped
library calls and of the conversion subprocess.  Everything the script
itself computes is in the stage functions below; everything a library
computes lives here. -/
structure Env where
  /-- Values of `torch.rand(FRAME_SIZE)` drawn for `input_frame` in `main`. -/
  rand : Fin FRAME_SIZE → ℚ
  /-- Values of the `torch.randn(FRAME_SIZE)` draws of `test_onnx_model`. -/
  randn : Nat → Fin FRAME_SIZE → ℚ
  /-- Outputs of `torch_df(frame, states)`, the original torch model. -/
  torchModel : Tensor → Tensor → List Tensor
  /-- Outputs of `ort_session.run(output_names, feed)`. -/
  ortRun : List String → List (String × Tensor) → List Tensor
  /-- Return code of the `convert_onnx_models_to_ort` subprocess. -/
  ortConvertExit : Int
  /-- Result of `torchaudio.load(path)`: channels-by-samples waveform and
  sample rate. -/
  loadAudio : String → List (List ℚ) × Nat
  /-- The streaming pipeline `streaming_pipeline(audio, sr)` applied with
  whatever `torch_streaming_model` is currently installed (first
  argument). -/
  pipelineRun : (List Tensor → List Tensor) → List (List ℚ) → Nat → List (List ℚ)

/-- Exceptions the script can raise. -/
inductive PyError where
  | notImplementedError (msg : String)
  | runtimeError (msg : String)
  | indexError (msg : String)
  | assertionError (f : TestFailure)
  deriving DecidableEq, Repr

/-- Source: `input_features = [input_frame]` in `main`, with
`input_frame = torch.rand(FRAME_SIZE)`. -/
def main_input_features (env : Env) : List Tensor :=
  [List.ofFn env.rand]

/-- The closure installed over `streaming_pipeline.torch_streaming_model`
by `infer_onnx_model`: it delegates to
`ort_session.run(OUTPUT_NAMES, generate_onnx_features(features))`
(the `torch.from_numpy` wrapping is the identity on values). -/
def onnxInferClosure (env : Env) (features : List Tensor) : List Tensor :=
  env.ortRun OUTPUT_NAMES (generate_onnx_features features)

/-- Source: `infer_onnx_model(streaming_pipeline, ort_session,
inference_path)`: replace the pipeline's internal model by the ONNX
closure, load the audio, downmix to mono (`mean(dim=0).unsqueeze(0)`),
run the pipeline, and save the result as 16-bit `PCM_S` to
`inference_path.replace(".wav", "_onnx_infer.wav")`. -/
def infer_onnx_model (env : Env) (inference_path : String) :
    List Event × List (List ℚ) :=
  let loaded := env.loadAudio inference_path
  let noisy_audio := [meanDim0 loaded.1]
  let enhanced_audio := env.pipelineRun (onnxInferClosure env) noisy_audio loaded.2
  let outPath := pyStrReplace inference_path ".wav" "_onnx_infer.wav"
  ([Event.loadAudio inference_path,
    Event.saveAudio outPath enhanced_audio loaded.2 "PCM_S" 16],
   enhanced_audio)

/-- The argv of the ORT conversion subprocess. -/
def ortConvertArgv (output_path : String) : List String :=
  ["python", "-m", "onnxruntime.tools.convert_onnx_models_to_ort",
   output_path, "--optimization_style", "Fixed"]

/-- The `if args.inference_path:` stage at the end of `main`. -/
def mainInferStage (args : Args) (env : Env) : List Event × Except PyError Unit :=
  match args.inference_path with
  | some p => ((infer_onnx_model env p).1, Except.ok ())
  | none => ([], Except.ok ())

/-- The `if args.performance:` stage of `main` followed by the inference
stage. -/
def mainPerfStage (args : Args) (env : Env) : List Event × Except PyError Unit :=
  let rest := mainInferStage args env
  if args.performance then (Event.benchmarkRun :: rest.1, rest.2) else rest

/-- The `if args.test:` stage of `main` followed by the later stages.  The
source evaluates `input_features[1]`; the list has one element, so the
lookup is modelled by `List.get?` with an `IndexError` on `none`. -/
def mainTestStage (args : Args) (env : Env) : List Event × Except PyError Unit :=
  if args.test then
    match (main_input_features env).get? 1 with
    | none => ([], Except.error (PyError.indexError "list index out of range"))
    | some states =>
      let t := test_onnx_model env.torchModel env.ortRun states env.randn
      match t.2 with
      | Except.error f => (t.1, Except.error (PyError.assertionError f))
      | Except.ok () =>
        let rest := mainPerfStage args env
        (t.1 ++ rest.1, rest.2)
  else mainPerfStage args env

/-- Session construction and the sanity `ort_session.run` of `main`,
followed by the optional stages.  The session options are fixed:
extended graph optimization, `optimized_model_filepath = args.output_path`,
one inter-op and one intra-op thread, sequential execution, CPU execution
provider. -/
def mainSessionStage (args : Args) (env : Env) : List Event × Except PyError Unit :=
  let rest := mainTestStage args env
  (Event.sessionBuild args.output_path args.output_path 1 1
      "ORT_SEQUENTIAL" "ORT_ENABLE_EXTENDED" ["CPUExecutionProvider"] ::
   Event.sessionRun OUTPUT_NAMES (generate_onnx_features (main_input_features env)) ::
   rest.1, rest.2)

/-- The `if args.ort:` stage of `main`: run the conversion subprocess and
raise `RuntimeError` on a non-zero return code, else continue. -/
def mainOrtStage (args : Args) (env : Env) : List Event × Except PyError Unit :=
  if args.ort then
    if env.ortConvertExit ≠ 0 then
      ([Event.ortConvert (ortConvertArgv args.output_path)],
       Except.error (PyError.runtimeError "ONNX to ORT conversion failed!"))
    else
      let rest := mainSessionStage args env
      (Event.ortConvert (ortConvertArgv args.output_path) :: rest.1, rest.2)
  else mainSessionStage args env

/-- The unconditional opening stages of `main`: `torch.onnx.export` (opset
14, fixed input/output names, target `args.output_path`), the checker,
quantization preprocessing and dynamic quantization, each reading and
writing `args.output_path`. -/
def exportStageEvents (args : Args) : List Event :=
  [Event.exportCall args.output_path INPUT_NAMES OUTPUT_NAMES 14,
   Event.checkModel args.output_path,
   Event.quantPreProcess args.output_path args.output_path,
   Event.quantizeDynamic args.output_path args.output_path "QUInt8"]

/-- Source: `main(args)`.  Export, check, preprocess, quantize; then
`if args.simplify: raise NotImplementedError(...)` strictly before the
`onnx_simplify` call; then the ORT conversion, session and optional
stages. -/
def mainRun (args : Args) (env : Env) : List Event × Except PyError Unit :=
  let rest :=
    if args.simplify then
      ([], Except.error
        (PyError.notImplementedError "Simplify not working for flatten states!"))
    else mainOrtStage args env
  (exportStageEvents args ++ rest.1, rest.2)

/-- Does the event record the ORT conversion subprocess? -/
def Event.isOrtConvert : Event → Bool
  | Event.ortConvert _ => true
  | _ => false

/-- Modelled from the spec's words, for comparison with the source's
`pyStrReplace` save path: the input path with `_onnx_infer` appended to
the stem, i.e. inserted immediately before the final extension (the
suffix starting at the last dot; appended at the very end when the path
has no dot). -/
def specStemOutPath (p : String) : String :=
  let idxs := (List.range p.data.length).filter (fun i => p.data.getD i ' ' = '.')
  match idxs.getLast? with
  | none => p ++ "_onnx_infer"
  | some i => ⟨p.data.take i ++ ("_onnx_infer".data) ++ p.data.drop i⟩

/-! ### Stage equation lemmas -/

lemma mainTestStage_of_test (args : Args) (env : Env) (h : args.test = true) :
    mainTestStage args env =
      ([], Except.error (PyError.indexError "list index out of range")) := by
  unfold mainTestStage
  rw [h]
  rfl

lemma mainTestStage_of_not_test (args : Args) (env : Env) (h : args.test = false) :
    mainTestStage args env = mainPerfStage args env := by
  unfold mainTestStage
  rw [h]
  rfl

lemma mainOrtStage_of_not_ort (args : Args) (env : Env) (h : args.ort = false) :
    mainOrtStage args env = mainSessionStage args env := by
  unfold mainOrtStage
  rw [h]
  rfl

lemma mainOrtStage_of_ort_fail (args : Args) (env : Env) (h : args.ort = true)
    (hx : env.ortConvertExit ≠ 0) :
    mainOrtStage args env =
      ([Event.ortConvert (ortConvertArgv args.output_path)],
       Except.error (PyError.runtimeError "ONNX to ORT conversion failed!")) := by
  unfold mainOrtStage
  rw [h]
  simp only [if_pos hx, if_true]

lemma mainOrtStage_of_ort_ok (args : Args) (env : Env) (h : args.ort = true)
    (hx : env.ortConvertExit = 0) :
    mainOrtStage args env =
      (Event.ortConvert (ortConvertArgv args.output_path) ::
        (mainSessionStage args env).1, (mainSessionStage args env).2) := by
  unfold mainOrtStage
  rw [h]
  simp only [hx, ne_eq, not_true_eq_false, if_false, if_true]

lemma mainRun_of_simplify (args : Args) (env : Env) (h : args.simplify = true) :
    mainRun args env =
      (exportStageEvents args,
       Except.error
         (PyError.notImplementedError "Simplify not working for flatten states!")) := by
  unfold mainRun
  rw [h]
  simp [exportStageEvents]

lemma mainRun_of_not_simplify (args : Args) (env : Env) (h : args.simplify = false) :
    mainRun args env =
      (exportStageEvents args ++ (mainOrtStage args env).1,
       (mainOrtStage args env).2) := by
  unfold mainRun
  rw [h]
  rfl

lemma mainPerfStage_snd (args : Args) (env : Env) :
    (mainPerfStage args env).2 = (mainInferStage args env).2 := by
  unfold mainPerfStage
  cases hp : args.performance <;> simp

lemma mainInferStage_snd (args : Args) (env : Env) :
    (mainInferStage args env).2 = Except.ok () := by
  unfold mainInferStage
  cases hip : args.inference_path <;> simp

lemma mainSessionStage_snd (args : Args) (env : Env) :
    (mainSessionStage args env).2 = (mainTestStage args env).2 := rfl

/-! ### Membership structure of the pipeline trace -/

lemma mem_exportStageEvents {args : Args} {e : Event}
    (h : e ∈ exportStageEvents args) :
    e = Event.exportCall args.output_path INPUT_NAMES OUTPUT_NAMES 14 ∨
    e = Event.checkModel args.output_path ∨
    e = Event.quantPreProcess args.output_path args.output_path ∨
    e = Event.quantizeDynamic args.output_path args.output_path "QUInt8" := by
  simp only [exportStageEvents, List.mem_cons, List.mem_singleton] at h
  tauto

lemma mem_mainInferStage {args : Args} {env : Env} {e : Event}
    (h : e ∈ (mainInferStage args env).1) :
    ∃ p, args.inference_path = some p ∧
      (e = Event.loadAudio p ∨
       e = Event.saveAudio (pyStrReplace p ".wav" "_onnx_infer.wav")
            (env.pipelineRun (onnxInferClosure env) [meanDim0 (env.loadAudio p).1]
              (env.loadAudio p).2)
            (env.loadAudio p).2 "PCM_S" 16) := by
  unfold mainInferStage at h
  cases hip : args.inference_path with
  | none => rw [hip] at h; simp at h
  | some p =>
    rw [hip] at h
    refine ⟨p, rfl, ?_⟩
    simp only [infer_onnx_model, List.mem_cons, List.mem_singleton,
      List.not_mem_nil, or_false] at h
    exact h

lemma mem_mainPerfStage {args : Args} {env : Env} {e : Event}
    (h : e ∈ (mainPerfStage args env).1) :
    e = Event.benchmarkRun ∨ e ∈ (mainInferStage args env).1 := by
  unfold mainPerfStage at h
  cases hp : args.performance with
  | false => rw [hp] at h; simp at h; exact Or.inr h
  | true => rw [hp] at h; simp only [if_true, List.mem_cons] at h; exact h

lemma mem_mainTestStage {args : Args} {env : Env} {e : Event}
    (h : e ∈ (mainTestStage args env).1) :
    e = Event.benchmarkRun ∨ e ∈ (mainInferStage args env).1 := by
  cases ht : args.test with
  | true => rw [mainTestStage_of_test args env ht] at h; simp at h
  | false =>
    rw [mainTestStage_of_not_test args env ht] at h
    exact mem_mainPerfStage h

lemma mem_mainSessionStage {args : Args} {env : Env} {e : Event}
    (h : e ∈ (mainSessionStage args env).1) :
    e = Event.sessionBuild args.output_path args.output_path 1 1
          "ORT_SEQUENTIAL" "ORT_ENABLE_EXTENDED" ["CPUExecutionProvider"] ∨
    e = Event.sessionRun OUTPUT_NAMES (generate_onnx_features (main_input_features env)) ∨
    e = Event.benchmarkRun ∨ e ∈ (mainInferStage args env).1 := by
  unfold mainSessionStage at h
  simp only [List.mem_cons] at h
  rcases h with h | h | h
  · exact Or.inl h
  · exact Or.inr (Or.inl h)
  · exact Or.inr (Or.inr (mem_mainTestStage h))

lemma mem_mainOrtStage {args : Args} {env : Env} {e : Event}
    (h : e ∈ (mainOrtStage args env).1) :
    e = Event.ortConvert (ortConvertArgv args.output_path) ∨
    e ∈ (mainSessionStage args env).1 := by
  cases ho : args.ort with
  | false => rw [mainOrtStage_of_not_ort args env ho] at h; exact Or.inr h
  | true =>
    by_cases hx : env.ortConvertExit = 0
    · rw [mainOrtStage_of_ort_ok args env ho hx] at h
      simp only [List.mem_cons] at h
      exact h
    · rw [mainOrtStage_of_ort_fail args env ho hx] at h
      simp only [List.mem_singleton] at h
      exact Or.inl h

/-- Every event of a pipeline trace is one of the explicitly reachable
ones: in particular neither `simplifyCall` nor `testIteration` ever
occurs. -/
lemma mem_mainRun {args : Args} {env : Env} {e : Event}
    (h : e ∈ (mainRun args env).1) :
    e ∈ exportStageEvents args ∨
    e = Event.ortConvert (ortConvertArgv args.output_path) ∨
    e = Event.sessionBuild args.output_path args.output_path 1 1
          "ORT_SEQUENTIAL" "ORT_ENABLE_EXTENDED" ["CPUExecutionProvider"] ∨
    e = Event.sessionRun OUTPUT_NAMES (generate_onnx_features (main_input_features env)) ∨
    e = Event.benchmarkRun ∨
    (∃ p, args.inference_path = some p ∧
      (e = Event.loadAudio p ∨
       e = Event.saveAudio (pyStrReplace p ".wav" "_onnx_infer.wav")
            (env.pipelineRun (onnxInferClosure env) [meanDim0 (env.loadAudio p).1]
              (env.loadAudio p).2)
            (env.loadAudio p).2 "PCM_S" 16)) := by
  cases hs : args.simplify with
  | true =>
    rw [mainRun_of_simplify args env hs] at h
    exact Or.inl h
  | false =>
    rw [mainRun_of_not_simplify args env hs] at h
    rcases List.mem_append.mp h with h | h
    · tauto
    · rcases mem_mainOrtStage h with h | h
      · tauto
      · rcases mem_mainSessionStage h with h | h | h | h
        · tauto
        · tauto
        · tauto
        · exact Or.inr (Or.inr (Or.inr (Or.inr (Or.inr (mem_mainInferStage h)))))

/-! ### The conversion subprocess runs at most once -/

lemma countP_ortConvert_mainInferStage (args : Args) (env : Env) :
    (mainInferStage args env).1.countP (fun e => Event.isOrtConvert e) = 0 := by
  unfold mainInferStage
  cases hip : args.inference_path with
  | none => simp
  | some p => simp [infer_onnx_model, Event.isOrtConvert]

lemma countP_ortConvert_mainPerfStage (args : Args) (env : Env) :
    (mainPerfStage args env).1.countP (fun e => Event.isOrtConvert e) = 0 := by
  unfold mainPerfStage
  cases hp : args.performance with
  | false => simpa using countP_ortConvert_mainInferStage args env
  | true =>
    simp only [if_true, List.countP_cons]
    simpa [Event.isOrtConvert] using countP_ortConvert_mainInferStage args env

lemma countP_ortConvert_mainTestStage (args : Args) (env : Env) :
    (mainTestStage args env).1.countP (fun e => Event.isOrtConvert e) = 0 := by
  cases ht : args.test with
  | true => rw [mainTestStage_of_test args env ht]; simp
  | false =>
    rw [mainTestStage_of_not_test args env ht]
    exact countP_ortConvert_mainPerfStage args env

lemma countP_ortConvert_mainSessionStage (args : Args) (env : Env) :
    (mainSessionStage args env).1.countP (fun e => Event.isOrtConvert e) = 0 := by
  unfold mainSessionStage
  simp only [List.countP_cons]
  simpa [Event.isOrtConvert] using countP_ortConvert_mainTestStage args env

lemma countP_ortConvert_mainRun (args : Args) (env : Env) :
    (mainRun args env).1.countP (fun e => Event.isOrtConvert e) ≤ 1 := by
  cases hs : args.simplify with
  | true => rw [mainRun_of_simplify args env hs]; simp [exportStageEvents, Event.isOrtConvert]
  | false =>
    rw [mainRun_of_not_simplify args env hs]
    rw [List.countP_append]
    have hexp : (exportStageEvents args).countP (fun e => Event.isOrtConvert e) = 0 := by
      simp [exportStageEvents, Event.isOrtConvert]
    rw [hexp]
    cases ho : args.ort with
    | false =>
      rw [mainOrtStage_of_not_ort args env ho]
      simp [countP_ortConvert_mainSessionStage args env]
    | true =>
      by_cases hx : env.ortConvertExit = 0
      · rw [mainOrtStage_of_ort_ok args env ho hx, List.countP_cons,
          countP_ortConvert_mainSessionStage args env]
        simp [Event.isOrtConvert]
      · rw [mainOrtStage_of_ort_fail args env ho hx]
        simp [Event.isOrtConvert]

/-! ### Claim theorems (first group) -/

/-- Claim C7: the exporter always serializes to the caller-supplied output
path with the single fixed input tensor name `input_frame`, the fixed
output tensor names `enhanced_audio_frame` and `out_states`, and opset
version 14; the export call supplies exactly one input name. -/
theorem spec_c7 (args : Args) (env : Env) :
    (mainRun args env).1.head? =
      some (Event.exportCall args.output_path INPUT_NAMES OUTPUT_NAMES 14) ∧
    INPUT_NAMES = ["input_frame"] ∧
    OUTPUT_NAMES = ["enhanced_audio_frame", "out_states"] ∧
    INPUT_NAMES.length = 1 := by
  exact ⟨rfl, rfl, rfl, rfl⟩

/-- Claim C2: the pipeline never reaches a call to the simplification
routine; when the simplify flag is set it raises the `NotImplementedError`
(and nothing later runs: the trace is exactly the export, check and
quantization stages), and when the flag is not set no
`NotImplementedError` is ever raised. -/
theorem spec_c2 (args : Args) (env : Env) :
    (∀ p, Event.simplifyCall p ∉ (mainRun args env).1) ∧
    (mainRun { args with simplify := true } env).2 =
      Except.error
        (PyError.notImplementedError "Simplify not working for flatten states!") ∧
    (∀ f, (mainRun { args with simplify := false } env).2 ≠
      Except.error (PyError.notImplementedError f)) := by
  refine ⟨?_, ?_, ?_⟩
  · intro p hmem
    rcases mem_mainRun hmem with h | h | h | h | h | ⟨q, _, h | h⟩ <;>
      first
        | (rcases mem_exportStageEvents h with h | h | h | h <;> cases h)
        | cases h
  · rw [mainRun_of_simplify { args with simplify := true } env rfl]
  · intro f hmem
    rw [mainRun_of_not_simplify { args with simplify := false } env rfl] at hmem
    set a := { args with simplify := false }
    cases ho : a.ort with
    | false =>
      rw [mainOrtStage_of_not_ort a env ho, mainSessionStage_snd] at hmem
      cases ht : a.test with
      | true => rw [mainTestStage_of_test a env ht] at hmem; cases hmem
      | false =>
        rw [mainTestStage_of_not_test a env ht, mainPerfStage_snd,
          mainInferStage_snd] at hmem
        cases hmem
    | true =>
      by_cases hx : env.ortConvertExit = 0
      · rw [mainOrtStage_of_ort_ok a env ho hx, mainSessionStage_snd] at hmem
        cases ht : a.test with
        | true => rw [mainTestStage_of_test a env ht] at hmem; cases hmem
        | false =>
          rw [mainTestStage_of_not_test a env ht, mainPerfStage_snd,
            mainInferStage_snd] at hmem
          cases hmem
      · rw [mainOrtStage_of_ort_fail a env ho hx] at hmem
        cases hmem

/-- Claim C10: the `always_apply_all_stages` flag has no effect: two
invocations of `main` differing only in that flag produce the same trace
and the same result. -/
theorem spec_c10 (args : Args) (env : Env) (b : Bool) :
    mainRun { args with always_apply_all_stages := b } env = mainRun args env := by
  cases args
  rfl

/-- Claim C6: `generate_onnx_features` returns min(1, number of features)
entries, every key is `input_frame`, and every feature after the first
(in particular a state tensor passed second) is dropped. -/
theorem spec_c6 (fs : List Tensor) :
    (generate_onnx_features fs).length = min INPUT_NAMES.length fs.length ∧
    INPUT_NAMES.length = 1 ∧
    (∀ p ∈ generate_onnx_features fs, p.1 = "input_frame") ∧
    (∀ t rest, fs = t :: rest → generate_onnx_features fs = [("input_frame", t)]) ∧
    generate_onnx_features [] = [] := by
  refine ⟨List.length_zip INPUT_NAMES fs, rfl, ?_, ?_, rfl⟩
  · intro p hp
    cases fs with
    | nil => simp [generate_onnx_features, INPUT_NAMES] at hp
    | cons t rest =>
      simp only [generate_onnx_features, INPUT_NAMES, List.zip_cons_cons,
        List.zip_nil_left, List.mem_singleton] at hp
      rw [hp]
  · intro t rest h
    subst h
    rfl

/-- Claim C6 witness: with two features supplied, only the first survives,
keyed `input_frame`. -/
theorem spec_c6_witness :
    generate_onnx_features [[5], [7]] = [("input_frame", [5])] ∧
    (generate_onnx_features [[5], [7]]).length = 1 := by
  refine ⟨(spec_c6 [[5], [7]]).2.2.2.1 [5] [[7]] rfl, ?_⟩
  rw [(spec_c6 [[5], [7]]).1]
  rfl

/-- Claim C4 counterexample: in the correctness test the state fed to the
torch model at iteration 1 is not the state produced at iteration 0 (with a
model whose `out_states` output extends its input state, the loop still
feeds the original state), and the ONNX feed contains no state entry at all. -/
theorem spec_c4_counterexample :
    (torchCallArgs [0] (fun _ _ => 0) 1).2 ≠
      torchProducedState (fun f st => [f, st ++ [1]]) [0] (fun _ _ => 0) 0 ∧
    (onnxCallFeed [0] (fun _ _ => 0) 1).map Prod.fst = ["input_frame"] := by
  constructor
  · intro h
    simp only [torchCallArgs, torchProducedState] at h
    cases h
  · rfl

/-- Claim C4 (amended): the recurrent state is not carried forward in
either pipeline: at every iteration the torch model is fed the (copy of
the) initial state `states`, and the ONNX session is fed only the input
frame; the state element is dropped from its feed. -/
theorem spec_c4 (states : Tensor) (randn : Nat → Fin FRAME_SIZE → ℚ) (i : Nat) :
    (torchCallArgs states randn i).2 = states ∧
    onnxCallFeed states randn i = [("input_frame", mkFrame randn i)] ∧
    (onnxCallFeed states randn i).map Prod.fst = INPUT_NAMES := by
  exact ⟨rfl, rfl, rfl⟩

/-- Claim C3: with the ORT flag set, a non-zero subprocess exit code makes
the pipeline raise `RuntimeError` with nothing after the conversion in the
trace (no session build, session run, test, benchmark or audio stage); a
zero exit code lets the pipeline continue to session construction; and the
conversion subprocess is never invoked more than once in any run. -/
theorem spec_c3 (args : Args) (env : Env) (hs : args.simplify = false)
    (ho : args.ort = true) :
    (env.ortConvertExit ≠ 0 →
      (mainRun args env).2 =
        Except.error (PyError.runtimeError "ONNX to ORT conversion failed!") ∧
      (mainRun args env).1 =
        exportStageEvents args ++ [Event.ortConvert (ortConvertArgv args.output_path)]) ∧
    (env.ortConvertExit = 0 →
      Event.sessionBuild args.output_path args.output_path 1 1
        "ORT_SEQUENTIAL" "ORT_ENABLE_EXTENDED" ["CPUExecutionProvider"] ∈
          (mainRun args env).1) ∧
    (∀ (a : Args) (e : Env),
      (mainRun a e).1.countP (fun ev => Event.isOrtConvert ev) ≤ 1) := by
  refine ⟨?_, ?_, countP_ortConvert_mainRun⟩
  · intro hx
    rw [mainRun_of_not_simplify args env hs, mainOrtStage_of_ort_fail args env ho hx]
    exact ⟨rfl, rfl⟩
  · intro hx
    rw [mainRun_of_not_simplify args env hs, mainOrtStage_of_ort_ok args env ho hx]
    unfold mainSessionStage
    simp

/-- Claim C3 witness: with the ORT flag set and exit code 1 the run ends in
the `RuntimeError` and the trace stops at the conversion event. -/
theorem spec_c3_witness :
    (mainRun { ort := true }
        { rand := fun _ => 0, randn := fun _ _ => 0,
          torchModel := fun _ _ => [], ortRun := fun _ _ => [],
          ortConvertExit := 1,
          loadAudio := fun _ => ([], 0),
          pipelineRun := fun _ a _ => a }).2 =
      Except.error (PyError.runtimeError "ONNX to ORT conversion failed!") ∧
    (mainRun { ort := true }
        { rand := fun _ => 0, randn := fun _ _ => 0,
          torchModel := fun _ _ => [], ortRun := fun _ _ => [],
          ortConvertExit := 1,
          loadAudio := fun _ => ([], 0),
          pipelineRun := fun _ a _ => a }).1 =
      exportStageEvents { ort := true } ++
        [Event.ortConvert (ortConvertArgv "denoiser_model.onnx")] := by
  exact (spec_c3 { ort := true } _ rfl rfl).1 (by decide)

/-- Claim C5: with the test flag set, the input-features list of `main` has
exactly one element while element index 1 is demanded, so the run always
fails before a single test iteration executes; when the earlier optional
stages do not abort first, the failure is precisely the `IndexError`. -/
theorem spec_c5 (args : Args) (env : Env) (ht : args.test = true) :
    (main_input_features env).length = 1 ∧
    (main_input_features env).get? 1 = none ∧
    (∀ i, Event.testIteration i ∉ (mainRun args env).1) ∧
    (mainRun args env).2 ≠ Except.ok () ∧
    (args.simplify = false → (args.ort = false ∨ env.ortConvertExit = 0) →
      (mainRun args env).2 =
        Except.error (PyError.indexError "list index out of range")) := by
  refine ⟨rfl, rfl, ?_, ?_, ?_⟩
  · intro i hmem
    rcases mem_mainRun hmem with h | h | h | h | h | ⟨q, _, h | h⟩ <;>
      first
        | (rcases mem_exportStageEvents h with h | h | h | h <;> cases h)
        | cases h
  · intro hok
    cases hsimp : args.simplify with
    | true =>
      rw [mainRun_of_simplify args env hsimp] at hok
      cases hok
    | false =>
      rw [mainRun_of_not_simplify args env hsimp] at hok
      cases ho : args.ort with
      | false =>
        rw [mainOrtStage_of_not_ort args env ho, mainSessionStage_snd,
          mainTestStage_of_test args env ht] at hok
        cases hok
      | true =>
        by_cases hx : env.ortConvertExit = 0
        · rw [mainOrtStage_of_ort_ok args env ho hx, mainSessionStage_snd,
            mainTestStage_of_test args env ht] at hok
          cases hok
        · rw [mainOrtStage_of_ort_fail args env ho hx] at hok
          cases hok
  · intro hsimp hor
    rw [mainRun_of_not_simplify args env hsimp]
    have hsess : (mainSessionStage args env).2 =
        Except.error (PyError.indexError "list index out of range") := by
      rw [mainSessionStage_snd, mainTestStage_of_test args env ht]
    rcases hor with ho | hx
    · rw [mainOrtStage_of_not_ort args env ho]
      exact hsess
    · cases ho : args.ort with
      | false =>
        rw [mainOrtStage_of_not_ort args env ho]
        exact hsess
      | true =>
        rw [mainOrtStage_of_ort_ok args env ho hx]
        exact hsess

/-- Claim C5 witness: a concrete run with the test flag set fails with the
`IndexError` and executes no test iteration. -/
theorem spec_c5_witness :
    (mainRun { test := true }
        { rand := fun _ => 0, randn := fun _ _ => 0,
          torchModel := fun _ _ => [], ortRun := fun _ _ => [],
          ortConvertExit := 0,
          loadAudio := fun _ => ([], 0),
          pipelineRun := fun _ a _ => a }).2 =
      Except.error (PyError.indexError "list index out of range") ∧
    Event.testIteration 0 ∉
      (mainRun { test := true }
        { rand := fun _ => 0, randn := fun _ _ => 0,
          torchModel := fun _ _ => [], ortRun := fun _ _ => [],
          ortConvertExit := 0,
          loadAudio := fun _ => ([], 0),
          pipelineRun := fun _ a _ => a }).1 := by
  have h := spec_c5 { test := true }
    { rand := fun _ => 0, randn := fun _ _ => 0,
      torchModel := fun _ _ => [], ortRun := fun _ _ => [],
      ortConvertExit := 0,
      loadAudio := fun _ => ([], 0),
      pipelineRun := fun _ a _ => a } rfl
  exact ⟨h.2.2.2.2 rfl (Or.inl rfl), h.2.2.1 0⟩

/-- Claim C8: every inference session construction in any run loads the
output path with exactly one inter-op thread, one intra-op thread,
sequential execution mode, extended graph optimization, the CPU execution
provider only, and the optimized-model file path set to the same output
path; and whenever the run reaches session construction (simplify unset,
conversion not failing) such a construction occurs. -/
theorem spec_c8 (args : Args) (env : Env) :
    (∀ lp op inter intra em lvl prov,
      Event.sessionBuild lp op inter intra em lvl prov ∈ (mainRun args env).1 →
        lp = args.output_path ∧ op = args.output_path ∧ inter = 1 ∧ intra = 1 ∧
        em = "ORT_SEQUENTIAL" ∧ lvl = "ORT_ENABLE_EXTENDED" ∧
        prov = ["CPUExecutionProvider"]) ∧
    (args.simplify = false → (args.ort = false ∨ env.ortConvertExit = 0) →
      Event.sessionBuild args.output_path args.output_path 1 1
        "ORT_SEQUENTIAL" "ORT_ENABLE_EXTENDED" ["CPUExecutionProvider"] ∈
          (mainRun args env).1) := by
  constructor
  · intro lp op inter intra em lvl prov hmem
    rcases mem_mainRun hmem with h | h | h | h | h | ⟨q, _, h | h⟩ <;>
      first
        | (rcases mem_exportStageEvents h with h | h | h | h <;> cases h)
        | (cases h; exact ⟨rfl, rfl, rfl, rfl, rfl, rfl, rfl⟩)
        | cases h
  · intro hsimp hor
    rw [mainRun_of_not_simplify args env hsimp]
    have hsess : Event.sessionBuild args.output_path args.output_path 1 1
        "ORT_SEQUENTIAL" "ORT_ENABLE_EXTENDED" ["CPUExecutionProvider"] ∈
        (mainSessionStage args env).1 := by
      unfold mainSessionStage
      simp
    rcases hor with ho | hx
    · exact List.mem_append_right _ (by rw [mainOrtStage_of_not_ort args env ho]; exact hsess)
    · cases ho : args.ort with
      | false =>
        exact List.mem_append_right _
          (by rw [mainOrtStage_of_not_ort args env ho]; exact hsess)
      | true =>
        refine List.mem_append_right _ ?_
        rw [mainOrtStage_of_ort_ok args env ho hx]
        exact List.mem_cons_of_mem _ hsess

/-- Claim C8 witness: a concrete default run contains the fixed session
construction event. -/
theorem spec_c8_witness :
    Event.sessionBuild "denoiser_model.onnx" "denoiser_model.onnx" 1 1
      "ORT_SEQUENTIAL" "ORT_ENABLE_EXTENDED" ["CPUExecutionProvider"] ∈
      (mainRun {}
        { rand := fun _ => 0, randn := fun _ _ => 0,
          torchModel := fun _ _ => [], ortRun := fun _ _ => [],
          ortConvertExit := 0,
          loadAudio := fun _ => ([], 0),
          pipelineRun := fun _ a _ => a }).1 := by
  exact (spec_c8 {} _).2 rfl (Or.inl rfl)

/-- Claim C2 witness: in a concrete run with the simplify flag the pipeline
raises the `NotImplementedError`, and the simplification call never occurs
in a default run's trace. -/
theorem spec_c2_witness :
    (mainRun { simplify := true }
        { rand := fun _ => 0, randn := fun _ _ => 0,
          torchModel := fun _ _ => [], ortRun := fun _ _ => [],
          ortConvertExit := 0,
          loadAudio := fun _ => ([], 0),
          pipelineRun := fun _ a _ => a }).2 =
      Except.error
        (PyError.notImplementedError "Simplify not working for flatten states!") ∧
    Event.simplifyCall "denoiser_model.onnx" ∉
      (mainRun {}
        { rand := fun _ => 0, randn := fun _ _ => 0,
          torchModel := fun _ _ => [], ortRun := fun _ _ => [],
          ortConvertExit := 0,
          loadAudio := fun _ => ([], 0),
          pipelineRun := fun _ a _ => a }).1 := by
  have h := spec_c2 ({} : Args)
    { rand := fun _ => 0, randn := fun _ _ => 0,
      torchModel := fun _ _ => [], ortRun := fun _ _ => [],
      ortConvertExit := 0,
      loadAudio := fun _ => ([], 0),
      pipelineRun := fun _ a _ => a }
  exact ⟨h.2.1, h.1 "denoiser_model.onnx"⟩

/-! ### Behaviour of the correctness-test loop -/

lemma checkOutputs_ok_iff (i : Nat) (ps : List (Tensor × Tensor × String)) :
    checkOutputs i ps = Except.ok () ↔
      ∀ p ∈ ps, torchAllclose allcloseDefaultRtol testAtol p.1 p.2.1 = true := by
  induction ps with
  | nil => simp [checkOutputs]
  | cons hd tl ih =>
    obtain ⟨x, y, name⟩ := hd
    by_cases hc : torchAllclose allcloseDefaultRtol testAtol x y = true
    · simp only [checkOutputs, if_pos hc]
      rw [ih]
      constructor
      · intro h p hp
        rcases List.mem_cons.mp hp with h1 | h1
        · rw [h1]
          exact hc
        · exact h p h1
      · intro h p hp
        exact h p (List.mem_cons_of_mem _ hp)
    · simp only [checkOutputs, if_neg hc]
      constructor
      · intro h
        exact Except.noConfusion h
      · intro h
        exact absurd (h (x, y, name) (List.mem_cons_self _ _)) hc

lemma checkOutputs_error (i : Nat) :
    ∀ (ps : List (Tensor × Tensor × String)) (f : TestFailure),
      checkOutputs i ps = Except.error f →
      f.iter = i ∧ ∃ p ∈ ps,
        torchAllclose allcloseDefaultRtol testAtol p.1 p.2.1 = false ∧
        f.name = p.2.2 ∧ f.torchLast5 = last5 p.1 ∧ f.onnxLast5 = last5 p.2.1 := by
  intro ps
  induction ps with
  | nil =>
    intro f h
    exact Except.noConfusion h
  | cons hd tl ih =>
    obtain ⟨x, y, name⟩ := hd
    intro f h
    by_cases hc : torchAllclose allcloseDefaultRtol testAtol x y = true
    · simp only [checkOutputs, if_pos hc] at h
      obtain ⟨h1, p, hp, hrest⟩ := ih f h
      exact ⟨h1, p, List.mem_cons_of_mem _ hp, hrest⟩
    · simp only [checkOutputs, if_neg hc] at h
      injection h with h
      subst h
      exact ⟨rfl, (x, y, name), List.mem_cons_self _ _,
        Bool.eq_false_iff.mpr hc, rfl, rfl, rfl⟩

lemma testFrom_ok_iff (tm : Tensor → Tensor → List Tensor)
    (ortRun : List String → List (String × Tensor) → List Tensor)
    (sT sO : Tensor) (randn : Nat → Fin FRAME_SIZE → ℚ) :
    ∀ (k i : Nat),
      (testFrom tm ortRun sT sO randn i k).2 = Except.ok () ↔
        ∀ j, i ≤ j → j < i + k →
          testIterCheck tm ortRun sT sO randn j = Except.ok () := by
  intro k
  induction k with
  | zero =>
    intro i
    constructor
    · intro _ j h1 h2
      omega
    · intro _
      rfl
  | succ n ih =>
    intro i
    simp only [testFrom]
    cases hc : testIterCheck tm ortRun sT sO randn i with
    | error f =>
      constructor
      · intro habs
        exact Except.noConfusion habs
      · intro hall
        have h := hall i (Nat.le_refl i) (by omega)
        rw [hc] at h
        exact Except.noConfusion h
    | ok u =>
      cases u
      have hlhs : (Event.testIteration i ::
            (testFrom tm ortRun sT sO randn (i + 1) n).1,
          (testFrom tm ortRun sT sO randn (i + 1) n).2).2 =
          (testFrom tm ortRun sT sO randn (i + 1) n).2 := rfl
      rw [hlhs, ih (i + 1)]
      constructor
      · intro hall j hj1 hj2
        by_cases hji : j = i
        · rw [hji]
          exact hc
        · exact hall j (by omega) (by omega)
      · intro hall j hj1 hj2
        exact hall j (by omega) (by omega)

lemma testFrom_error (tm : Tensor → Tensor → List Tensor)
    (ortRun : List String → List (String × Tensor) → List Tensor)
    (sT sO : Tensor) (randn : Nat → Fin FRAME_SIZE → ℚ) :
    ∀ (k i : Nat) (f : TestFailure),
      (testFrom tm ortRun sT sO randn i k).2 = Except.error f →
      ∃ j, i ≤ j ∧ j < i + k ∧
        testIterCheck tm ortRun sT sO randn j = Except.error f := by
  intro k
  induction k with
  | zero =>
    intro i f h
    exact Except.noConfusion h
  | succ n ih =>
    intro i f h
    simp only [testFrom] at h
    cases hc : testIterCheck tm ortRun sT sO randn i with
    | error g =>
      rw [hc] at h
      have h2 : Except.error g = Except.error f := h
      injection h2 with h2
      exact ⟨i, Nat.le_refl i, by omega, by rw [hc, h2]⟩
    | ok u =>
      cases u
      rw [hc] at h
      have h2 : (testFrom tm ortRun sT sO randn (i + 1) n).2 = Except.error f := h
      obtain ⟨j, hj1, hj2, hj3⟩ := ih (i + 1) f h2
      exact ⟨j, by omega, by omega, hj3⟩

lemma testFrom_trace_of_ok (tm : Tensor → Tensor → List Tensor)
    (ortRun : List String → List (String × Tensor) → List Tensor)
    (sT sO : Tensor) (randn : Nat → Fin FRAME_SIZE → ℚ) :
    ∀ (k i : Nat),
      (testFrom tm ortRun sT sO randn i k).2 = Except.ok () →
      (testFrom tm ortRun sT sO randn i k).1 =
        (List.range' i k).map Event.testIteration := by
  intro k
  induction k with
  | zero =>
    intro i _
    rfl
  | succ n ih =>
    intro i hok
    simp only [testFrom] at hok ⊢
    cases hc : testIterCheck tm ortRun sT sO randn i with
    | error f =>
      rw [hc] at hok
      exact Except.noConfusion hok
    | ok u =>
      cases u
      rw [hc] at hok
      have h2 : (testFrom tm ortRun sT sO randn (i + 1) n).2 = Except.ok () := hok
      show Event.testIteration i :: (testFrom tm ortRun sT sO randn (i + 1) n).1 =
        (List.range' i (n + 1)).map Event.testIteration
      rw [ih (i + 1) h2]
      rfl

set_option maxRecDepth 4000

/-- Claim C1: in the correctness test each of the 30 iterations runs a
fresh random length-480 frame through both the torch model and the ONNX
session (the latter fed exactly the frame under the key `input_frame`); on
success all 30 iterations execute; the test raises exactly when some
output tensor pair of some iteration fails the `allclose` check with
absolute tolerance 1/100 (and torch's default relative tolerance); and
any raised diagnostic carries the last 5 flattened values of the two
mismatching tensors.  The wellformedness hypothesis restricts to runs
where compared tensors have equal length, where the embedding of
`torch.allclose` is exact. -/
theorem spec_c1 (tm : Tensor → Tensor → List Tensor)
    (ortRun : List String → List (String × Tensor) → List Tensor)
    (states : Tensor) (randn : Nat → Fin FRAME_SIZE → ℚ)
    (_hwf : ∀ i, i < 30 → ∀ p ∈ testIterPairs tm ortRun states states randn i,
      p.1.length = p.2.1.length) :
    (∀ i, torchCallArgs states randn i = (mkFrame randn i, states) ∧
      (mkFrame randn i).length = 480 ∧
      onnxCallFeed states randn i = [("input_frame", mkFrame randn i)]) ∧
    ((test_onnx_model tm ortRun states randn).2 = Except.ok () →
      (test_onnx_model tm ortRun states randn).1 =
        (List.range 30).map Event.testIteration) ∧
    ((∃ f, (test_onnx_model tm ortRun states randn).2 = Except.error f) ↔
      ∃ i, i < 30 ∧ ∃ p ∈ testIterPairs tm ortRun states states randn i,
        torchAllclose allcloseDefaultRtol testAtol p.1 p.2.1 = false) ∧
    (∀ f, (test_onnx_model tm ortRun states randn).2 = Except.error f →
      f.iter < 30 ∧ ∃ p ∈ testIterPairs tm ortRun states states randn f.iter,
        torchAllclose allcloseDefaultRtol testAtol p.1 p.2.1 = false ∧
        f.name = p.2.2 ∧ f.torchLast5 = last5 p.1 ∧ f.onnxLast5 = last5 p.2.1) := by
  refine ⟨?_, ?_, ?_, ?_⟩
  · intro i
    refine ⟨rfl, ?_, ?_⟩
    · show (List.ofFn (randn i)).length = 480
      rw [List.length_ofFn]
      rfl
    · rfl
  · intro hok
    have h := testFrom_trace_of_ok tm ortRun states states randn 30 0 hok
    rw [List.range_eq_range']
    exact h
  · constructor
    · rintro ⟨f, hf⟩
      obtain ⟨j, hj1, hj2, hj3⟩ := testFrom_error tm ortRun states states randn 30 0 f hf
      obtain ⟨_, p, hp, hfail, _⟩ := checkOutputs_error j _ f hj3
      exact ⟨j, by omega, p, hp, hfail⟩
    · rintro ⟨i, hi, p, hp, hfail⟩
      cases ht2 : (test_onnx_model tm ortRun states randn).2 with
      | ok u =>
        cases u
        exfalso
        have hall := (testFrom_ok_iff tm ortRun states states randn 30 0).mp ht2
        have hchk : checkOutputs i (testIterPairs tm ortRun states states randn i) =
            Except.ok () := hall i (Nat.zero_le i) (by omega)
        have := (checkOutputs_ok_iff i _).mp hchk p hp
        rw [hfail] at this
        exact Bool.noConfusion this
      | error f => exact ⟨f, rfl⟩
  · intro f hf
    obtain ⟨j, hj1, hj2, hj3⟩ := testFrom_error tm ortRun states states randn 30 0 f hf
    obtain ⟨hiter, p, hp, hrest⟩ := checkOutputs_error j _ f hj3
    rw [hiter]
    exact ⟨by omega, p, hp, hrest⟩

/-- Claim C1 witness: with a model producing no output tensors the zipped
pair list is empty, every closeness assertion passes vacuously, the test
finishes without raising, and all 30 iterations execute. -/
theorem spec_c1_witness :
    (test_onnx_model (fun _ _ => []) (fun _ _ => []) [] (fun _ _ => 0)).2 =
      Except.ok () ∧
    (test_onnx_model (fun _ _ => []) (fun _ _ => []) [] (fun _ _ => 0)).1 =
      (List.range 30).map Event.testIteration := by
  have hpairs : ∀ i, testIterPairs (fun _ _ => ([] : List Tensor))
      (fun _ _ => ([] : List Tensor)) [] [] (fun _ _ => (0 : ℚ)) i = [] := fun _ => rfl
  have h := spec_c1 (fun _ _ => []) (fun _ _ => []) [] (fun _ _ => 0)
    (by
      intro i _ p hp
      rw [hpairs i] at hp
      exact absurd hp (List.not_mem_nil p))
  have hok : (test_onnx_model (fun _ _ => ([] : List Tensor))
      (fun _ _ => ([] : List Tensor)) [] (fun _ _ => (0 : ℚ))).2 = Except.ok () := by
    cases ht2 : (test_onnx_model (fun _ _ => ([] : List Tensor))
        (fun _ _ => ([] : List Tensor)) [] (fun _ _ => (0 : ℚ))).2 with
    | ok u => cases u; rfl
    | error f =>
      exfalso
      obtain ⟨i, _, p, hp, _⟩ := h.2.2.1.mp ⟨f, ht2⟩
      rw [hpairs i] at hp
      exact absurd hp (List.not_mem_nil p)
  exact ⟨hok, h.2.1 hok⟩

/-- Claim C9 counterexample: for the inference path `noisy.flac` the audio
runner writes to the input path itself (Python's `replace(".wav", ...)`
finds no occurrence), not to the path with `_onnx_infer` appended to the
stem, so the input file is overwritten rather than left unchanged. -/
theorem spec_c9_counterexample :
    (infer_onnx_model
        { rand := fun _ => 0, randn := fun _ _ => 0,
          torchModel := fun _ _ => [], ortRun := fun _ _ => [],
          ortConvertExit := 0,
          loadAudio := fun _ => ([[0]], 48000),
          pipelineRun := fun _ a _ => a } "noisy.flac").1 =
      [Event.loadAudio "noisy.flac",
       Event.saveAudio "noisy.flac" [[0]] 48000 "PCM_S" 16] ∧
    specStemOutPath "noisy.flac" = "noisy_onnx_infer.flac" ∧
    ("noisy.flac" : String) ≠ specStemOutPath "noisy.flac" := by
  have hpath : pyStrReplace "noisy.flac" ".wav" "_onnx_infer.wav" = "noisy.flac" := by
    decide
  have hmean : meanDim0 [[(0 : ℚ)]] = [0] := by
    simp [meanDim0]
  refine ⟨?_, by decide, by decide⟩
  simp only [infer_onnx_model]
  rw [hpath]
  simp [hmean]

/-- Claim C9 (amended): the audio runner downmixes the loaded waveform to
mono by averaging its channels, runs it through the streaming pipeline
with the internal inference call replaced by a closure delegating to the
ONNX session, and writes the result as 16-bit `PCM_S` to the path obtained
from the input path by replacing every occurrence of `.wav` with
`_onnx_infer.wav` (which appends `_onnx_infer` to the stem only when the
sole occurrence of `.wav` is the final extension; a path without `.wav`
is overwritten in place). -/
theorem spec_c9 (env : Env) (p : String) :
    (infer_onnx_model env p).1 =
      [Event.loadAudio p,
       Event.saveAudio (pyStrReplace p ".wav" "_onnx_infer.wav")
         (env.pipelineRun (onnxInferClosure env) [meanDim0 (env.loadAudio p).1]
           (env.loadAudio p).2)
         (env.loadAudio p).2 "PCM_S" 16] ∧
    (infer_onnx_model env p).2 =
      env.pipelineRun (onnxInferClosure env) [meanDim0 (env.loadAudio p).1]
        (env.loadAudio p).2 ∧
    (∀ features, onnxInferClosure env features =
      env.ortRun OUTPUT_NAMES (generate_onnx_features features)) ∧
    (∀ w : List (List ℚ), ∀ j, j < (meanDim0 w).length →
      (meanDim0 w).get? j =
        some ((w.map (fun ch => ch.getD j 0)).sum / (w.length : ℚ))) := by
  refine ⟨rfl, rfl, fun _ => rfl, ?_⟩
  intro w j hj
  cases w with
  | nil => simp [meanDim0] at hj
  | cons c tl =>
    have hj2 : j < c.length := by
      simpa [meanDim0] using hj
    simp only [meanDim0]
    rw [List.get?_map, List.get?_range hj2]
    rfl

/-- Claim C9 witness: for the path `a.wav` and a two-channel waveform the
runner saves the channel average to `a_onnx_infer.wav` as 16-bit PCM. -/
theorem spec_c9_witness :
    (infer_onnx_model
        { rand := fun _ => 0, randn := fun _ _ => 0,
          torchModel := fun _ _ => [], ortRun := fun _ _ => [],
          ortConvertExit := 0,
          loadAudio := fun _ => ([[2], [4]], 48000),
          pipelineRun := fun _ a _ => a } "a.wav").1 =
      [Event.loadAudio "a.wav",
       Event.saveAudio "a_onnx_infer.wav" [[3]] 48000 "PCM_S" 16] ∧
    (meanDim0 [[2], [4]]).get? 0 = some 3 := by
  have hpath : pyStrReplace "a.wav" ".wav" "_onnx_infer.wav" = "a_onnx_infer.wav" := by
    decide
  have hr1 : List.range 1 = [0] := rfl
  have hmean : meanDim0 [[(2 : ℚ)], [4]] = [3] := by
    simp [meanDim0, hr1]
    norm_num
  constructor
  · rw [(spec_c9
      { rand := fun _ => 0, randn := fun _ _ => 0,
        torchModel := fun _ _ => [], ortRun := fun _ _ => [],
        ortConvertExit := 0,
        loadAudio := fun _ => ([[2], [4]], 48000),
        pipelineRun := fun _ a _ => a } "a.wav").1]
    rw [hpath]
    simp [hmean]
  · rw [(spec_c9
      { rand := fun _ => 0, randn := fun _ _ => 0,
        torchModel := fun _ _ => [], ortRun := fun _ _ => [],
        ortConvertExit := 0,
        loadAudio := fun _ => ([[2], [4]], 48000),
        pipelineRun := fun _ a _ => a } "a.wav").2.2.2 [[2], [4]] 0 (by decide)]
    simp [List.getD]
    norm_num

end ModelOnnxExport
